import Mathlib

/-!
Verification of the account-state synchronization subsystem of the
KyberNetwork binance-client repository, as a shallow embedding in Lean 4.

The Go sources embedded here are:
- `binance.go` (`BAccountInfoStore`: `UpdateOrder`, `UpdateBalanceDelta`,
  `UpdateBalance`, `SetData` and the data model),
- `binance_ws_worker.go` (`AccountDataWorker`: `processMessages`,
  `parseAccountOrder`, `parseAccountBalance`, `initWSSession`),
- `binance_client.go` and the earlier client evolutions in `unnamed/part_000`
  and `unnamed/part_001` (`CreateListenKey`, `doRequest`).

Go maps are embedded as association lists with unique keys; pointer mutation
of a map entry is embedded as a functional update at the entry's key.  The
external decimal library (shopspring/decimal) and the JSON libraries
(encoding/json, buger/jsonparser) are modelled at the behaviour used by the
call sites.  Mutex locking and goroutine scheduling are outside the embedding;
every store operation is embedded as the state transformation it performs
while holding the store lock.
-/

set_option maxRecDepth 8000

deriving instance DecidableEq for Except

/-- `Balance` of account (binance.go / common.go). -/
structure Balance where
  asset : String
  free : String
  locked : String
deriving DecidableEq

/-- `PayloadBalance` is the balance object from a socket payload (binance.go). -/
structure PayloadBalance where
  asset : String
  free : String
  lock : String
deriving DecidableEq

/-- `BalanceUpdate` payload (binance.go): JSON keys E, a, d, T. -/
structure BalanceUpdate where
  eventTime : Int
  asset : String
  balanceDelta : String
  clearTime : Int
deriving DecidableEq

/-- `ExecutionReport` object (binance.go). -/
structure ExecutionReport where
  eventTime : Int
  symbol : String
  clientOrderID : String
  side : String
  orderType : String
  timeInForce : String
  quantity : String
  price : String
  stopPrice : String
  icebergQuantity : String
  orderListID : Int
  originalClientOrderID : String
  currentExecutionType : String
  currentOrderStatus : String
  rejectReason : String
  orderID : Int
  lastExecutedQuantity : String
  cumulativeFilledQuantity : String
  lastExecutedPrice : String
  commissionAmount : String
  transactionTime : Int
  tradeID : Int
  orderCreationTime : Int
  quoteOrderQty : String
  cumulativeQuoteAssetTransactedQuantity : String
  isOrderInTheBook : Bool
deriving DecidableEq

/-- `OpenOrder` record (binance.go). -/
structure OpenOrder where
  symbol : String
  orderID : Int
  orderListID : Int
  clientOrderID : String
  price : String
  origQty : String
  executedQty : String
  cummulativeQuoteQty : String
  status : String
  timeInForce : String
  type : String
  side : String
  stopPrice : String
  icebergQty : String
  time : Int
  updateTime : Int
  isWorking : Bool
  origQuoteOrderQty : String
deriving DecidableEq

/-- The Go zero value `&OpenOrder\x7b\x7d` inserted by `UpdateOrder` when the key is
absent from the open-order map. -/
def emptyOpenOrder : OpenOrder :=
  { symbol := "", orderID := 0, orderListID := 0, clientOrderID := "", price := ""
    origQty := "", executedQty := "", cummulativeQuoteQty := "", status := ""
    timeInForce := "", type := "", side := "", stopPrice := "", icebergQty := ""
    time := 0, updateTime := 0, isWorking := false, origQuoteOrderQty := "" }

/-- `AccountState` is the balance state of tokens (binance.go), with the embedded
`StatusImpl` fields inlined as `success` and `msg`. -/
structure AccountState where
  success : Bool := false
  msg : String := ""
  makerCommission : Int := 0
  takerCommission : Int := 0
  buyerCommission : Int := 0
  sellerCommission : Int := 0
  canTrade : Bool := false
  canWithdraw : Bool := false
  canDeposit : Bool := false
  updateTime : Nat := 0
  accountType : String := ""
  balances : List Balance := []
  permissions : List String := []
deriving DecidableEq

/-- `map[string]*OpenOrder` embedded as an association list whose keys are the
composite order ids; operations below keep keys unique, as the Go map does. -/
abbrev OrderMap := List (String × OpenOrder)

/-- Go map read `m[k]`: the binding of `k`, if present. -/
def lookupOrder : OrderMap → String → Option OpenOrder
  | [], _ => none
  | (k, v) :: rest, key => if k = key then some v else lookupOrder rest key

/-- Go map write `m[k] = v`: replaces the existing binding of `k`, or appends a
fresh one. -/
def insertOrder : OrderMap → String → OpenOrder → OrderMap
  | [], key, v => [(key, v)]
  | (k, w) :: rest, key, v =>
    if k = key then (k, v) :: rest else (k, w) :: insertOrder rest key v

/-- Go map delete `delete(m, k)`: removes the binding of `k`. -/
def eraseOrder : OrderMap → String → OrderMap
  | [], _ => []
  | (k, v) :: rest, key =>
    if k = key then eraseOrder rest key else (k, v) :: eraseOrder rest key

/-- `BAccountInfo` object (binance.go): account state plus the open-order map. -/
structure BAccountInfo where
  state : AccountState
  openOrder : OrderMap
deriving DecidableEq

/-- Modelled from the spec: the "composite key (symbol + numeric order id)" used
for the open-order map and the completed-order cache.  The Go function
`common.MakeCompletedOrderID` lives in the external `cex_account_data/common`
module and is not among this repository's sources. -/
def makeCompletedOrderID (symbol : String) (orderID : Int) : String :=
  symbol ++ "_" ++ toString orderID

/-- Modelled from the spec: `UniqOrder`, the composite key used by
`initWSSession` when merging REST open orders into the same map that
`UpdateOrder` later reads with `MakeCompletedOrderID`; its definition is not
among the provided sources, and consistency of the two lookups forces it to
produce the same composite key. -/
def uniqOrder (symbol : String) (orderID : Int) : String :=
  makeCompletedOrderID symbol orderID

/-- The eighteen field assignments of `BAccountInfoStore.UpdateOrder`
(binance.go lines 48-65) that copy the execution report into the (shared)
`OpenOrder` record; `OrigQuoteOrderQty` is set to the empty string. -/
def ExecutionReport.toOpenOrder (o : ExecutionReport) : OpenOrder :=
  { symbol := o.symbol
    orderID := o.orderID
    orderListID := o.orderListID
    clientOrderID := o.clientOrderID
    price := o.price
    origQty := o.quantity
    executedQty := o.cumulativeFilledQuantity
    cummulativeQuoteQty := o.cumulativeQuoteAssetTransactedQuantity
    status := o.currentOrderStatus
    timeInForce := o.timeInForce
    type := o.orderType
    side := o.side
    stopPrice := o.stopPrice
    icebergQty := o.icebergQuantity
    time := o.orderCreationTime
    updateTime := o.eventTime
    isWorking := o.isOrderInTheBook
    origQuoteOrderQty := "" }

/-- Result of `BAccountInfoStore.UpdateOrder`: the returned record, the removed
flag, the returned error (always `none` in the source) and the open-order map
after the call. -/
structure UpdateOrderResult where
  order : OpenOrder
  removed : Bool
  err : Option String
  openOrder : OrderMap
deriving DecidableEq

/-- `BAccountInfoStore.UpdateOrder` (binance.go lines 38-72).  The Go code
fetches or inserts the record pointer for the composite key, overwrites every
field of the shared record (which writes the record into the map), and on a
terminal status (`CANCELED` or `FILLED`) deletes the key and reports
`removed = true`; the returned error is always nil. -/
def updateOrder (m : OrderMap) (o : ExecutionReport) : UpdateOrderResult :=
  let orderID := makeCompletedOrderID o.symbol o.orderID
  let m1 : OrderMap :=
    match lookupOrder m orderID with
    | some _ => m
    | none => insertOrder m orderID emptyOpenOrder
  let order := o.toOpenOrder
  let m2 := insertOrder m1 orderID order
  if o.currentOrderStatus = "CANCELED" ∨ o.currentOrderStatus = "FILLED" then
    { order := order, removed := true, err := none, openOrder := eraseOrder m2 orderID }
  else
    { order := order, removed := false, err := none, openOrder := m2 }

/-- `BAccountInfoStore.OpenOrders` (binance.go lines 75-83): the values of the
open-order map. -/
def openOrders (m : OrderMap) : List OpenOrder := m.map (·.2)

/-- Modelled from the spec: the completed-order archive.  `ocache.OCache.Set`
stores the final record under the completed-order id; the cache library is
external to the provided sources, and the spec describes it as a short-lived
archive keyed like the open-order map. -/
def cacheSet (c : List (String × OpenOrder)) (key : String) (v : OpenOrder) :
    List (String × OpenOrder) :=
  insertOrder c key v

/-- Modelled from the spec: reading the completed-order archive back. -/
def cacheGet (c : List (String × OpenOrder)) (key : String) : Option OpenOrder :=
  lookupOrder c key

/-! ## Decimal model (shopspring/decimal as used by `UpdateBalanceDelta`) -/

/-- Model of `decimal.Decimal`: an arbitrary-precision integer coefficient and
a base-ten exponent, representing `value * 10 ^ exp`. -/
structure GoDecimal where
  value : Int
  exp : Int
deriving DecidableEq

/-- Digits of a decimal literal folded into a natural number. -/
def digitsToNat (cs : List Char) : Nat :=
  cs.foldl (fun n c => 10 * n + (c.toNat - '0'.toNat)) 0

/-- Model of `strconv.ParseInt` / `big.Int.SetString` on base-ten input: an
optional sign followed by at least one digit. -/
def parseSignedInt : List Char → Option Int
  | [] => none
  | '+' :: rest =>
    if rest ≠ [] ∧ rest.all Char.isDigit then some (digitsToNat rest : Int) else none
  | '-' :: rest =>
    if rest ≠ [] ∧ rest.all Char.isDigit then some (-(digitsToNat rest : Int)) else none
  | cs =>
    if cs.all Char.isDigit then some (digitsToNat cs : Int) else none

/-- Split a decimal literal at the first `e`/`E`, as
`decimal.NewFromString` does for scientific notation. -/
def splitExp : List Char → List Char × Option (List Char)
  | [] => ([], none)
  | c :: rest =>
    if c = 'e' ∨ c = 'E' then ([], some rest)
    else
      let s := splitExp rest
      (c :: s.1, s.2)

/-- Split the mantissa at its decimal point; `none` when there is more than one
point ("can't convert ... too many .s" in `decimal.NewFromString`). -/
def splitDot : List Char → Option (List Char × List Char)
  | [] => some ([], [])
  | c :: rest =>
    if c = '.' then
      if rest.contains '.' then none else some ([], rest)
    else
      match splitDot rest with
      | none => none
      | some s => some (c :: s.1, s.2)

/-- Model of `decimal.NewFromString`: strip an optional exponent suffix, drop
the decimal point while lowering the exponent by the number of fractional
digits, and parse the remaining signed digit string. -/
def newFromString (s : String) : Option GoDecimal :=
  let cs := s.toList
  let mant := splitExp cs
  let expRes : Option Int :=
    match mant.2 with
    | none => some 0
    | some ecs => parseSignedInt ecs
  match expRes with
  | none => none
  | some e =>
    match splitDot mant.1 with
    | none => none
    | some parts =>
      match parseSignedInt (parts.1 ++ parts.2) with
      | none => none
      | some v => some { value := v, exp := e - parts.2.length }

/-- Model of `decimal.Decimal.Add`: rescale both operands to the smaller
exponent and add the coefficients. -/
def GoDecimal.add (a b : GoDecimal) : GoDecimal :=
  if a.exp ≤ b.exp then
    { value := a.value + b.value * (10 : Int) ^ (b.exp - a.exp).toNat, exp := a.exp }
  else
    { value := a.value * (10 : Int) ^ (a.exp - b.exp).toNat + b.value, exp := b.exp }

/-- Model of `decimal.Decimal.String` (no trailing-zero trimming): a
non-negative exponent prints the rescaled integer; a negative exponent splits
the absolute coefficient into integer and fractional digits, zero-padding the
fraction, and prepends the sign. -/
def GoDecimal.toString (d : GoDecimal) : String :=
  if 0 ≤ d.exp then
    ToString.toString (d.value * (10 : Int) ^ d.exp.toNat)
  else
    let str := ToString.toString d.value.natAbs
    let digits := str.toList
    let dExpInt := (-d.exp).toNat
    let intPart : List Char :=
      if dExpInt < digits.length then digits.take (digits.length - dExpInt) else ['0']
    let fractionalPart : List Char :=
      if dExpInt < digits.length then digits.drop (digits.length - dExpInt)
      else List.replicate (dExpInt - digits.length) '0' ++ digits
    let number :=
      if fractionalPart.length > 0 then
        String.mk intPart ++ "." ++ String.mk fractionalPart
      else String.mk intPart
    if d.value < 0 then "-" ++ number else number

/-! ## Balance operations of `BAccountInfoStore` -/

/-- The loop body of `BAccountInfoStore.UpdateBalanceDelta` (binance.go lines
104-120): skip non-matching assets; at the first matching asset parse the
delta, then the stored free amount (each parse failure aborts with that
error), replace the free amount with their sum and stop. -/
def applyBalanceDeltaLoop : List Balance → BalanceUpdate → Except String (List Balance)
  | [], _ => .ok []
  | b :: rest, u =>
    if b.asset ≠ u.asset then
      match applyBalanceDeltaLoop rest u with
      | .error e => .error e
      | .ok bs => .ok (b :: bs)
    else
      match newFromString u.balanceDelta with
      | none => .error "failed to parse balance delta"
      | some delta =>
        match newFromString b.free with
        | none => .error "failed to parse old free balance"
        | some oldBalance =>
          .ok ({ b with free := (oldBalance.add delta).toString } :: rest)

/-- `BAccountInfoStore.UpdateBalanceDelta` (binance.go lines 99-122) on the
whole store. -/
def updateBalanceDelta (info : BAccountInfo) (u : BalanceUpdate) :
    Except String BAccountInfo :=
  match applyBalanceDeltaLoop info.state.balances u with
  | .error e => .error e
  | .ok bs => .ok { info with state := { info.state with balances := bs } }

/-- The inner loop of `BAccountInfoStore.UpdateBalance` (binance.go lines
130-148) for a single payload entry: overwrite free/locked of the first
balance with the same asset, or append a new balance when none matches. -/
def upsertBalance : List Balance → PayloadBalance → List Balance
  | [], t => [{ asset := t.asset, free := t.free, locked := t.lock }]
  | b :: rest, t =>
    if t.asset ≠ b.asset then b :: upsertBalance rest t
    else { b with free := t.free, locked := t.lock } :: rest

/-- `BAccountInfoStore.UpdateBalance` (binance.go lines 125-150) on the whole
store: upsert every payload entry in order; the source always returns nil. -/
def updateBalance (info : BAccountInfo) (balance : List PayloadBalance) :
    Except String BAccountInfo :=
  .ok { info with
        state := { info.state with
                   balances := balance.foldl upsertBalance info.state.balances } }

/-- Number of balance entries carrying a given asset, used to state that asset
uniqueness of the balance list is preserved. -/
def countAsset (bs : List Balance) (a : String) : Nat :=
  (bs.filter (fun b => b.asset = a)).length

/-- `BAccountInfoStore.SetData` (binance.go lines 179-183): replace the whole
account info. -/
def setData (_info : BAccountInfo) (data : BAccountInfo) : BAccountInfo := data

/-! ## JSON model (encoding/json and buger/jsonparser at the call sites) -/

/-- JSON values; numbers keep their raw literal so that integer extraction can
reject fractional input exactly as `jsonparser.GetInt` and `encoding/json`
do for integer-typed fields. -/
inductive Json where
  | null : Json
  | bool (b : Bool) : Json
  | num (raw : String) : Json
  | str (s : String) : Json
  | arr (elems : List Json) : Json
  | obj (fields : List (String × Json)) : Json

/-- Drop leading JSON whitespace. -/
def skipWs : List Char → List Char
  | [] => []
  | c :: rest =>
    if c = ' ' ∨ c = '\t' ∨ c = '\n' ∨ c = '\r' then skipWs rest else c :: rest

/-- Unescaped translation of a single-character JSON escape. -/
def escChar (c : Char) : Option Char :=
  if c = '"' then some '"'
  else if c = '\\' then some '\\'
  else if c = '/' then some '/'
  else if c = 'b' then some (Char.ofNat 8)
  else if c = 'f' then some (Char.ofNat 12)
  else if c = 'n' then some '\n'
  else if c = 'r' then some '\r'
  else if c = 't' then some '\t'
  else none

/-- Value of a hexadecimal digit. -/
def hexVal (c : Char) : Option Nat :=
  if '0' ≤ c ∧ c ≤ '9' then some (c.toNat - '0'.toNat)
  else if 'a' ≤ c ∧ c ≤ 'f' then some (c.toNat - 'a'.toNat + 10)
  else if 'A' ≤ c ∧ c ≤ 'F' then some (c.toNat - 'A'.toNat + 10)
  else none

/-- Parse the body of a JSON string after the opening quote, returning the
decoded string and the input after the closing quote. -/
def parseStringBody (fuel : Nat) (acc : List Char) (input : List Char) :
    Option (String × List Char) :=
  match fuel, input with
  | 0, _ => none
  | _, [] => none
  | fuel + 1, c :: rest =>
    if c = '"' then some (String.mk acc.reverse, rest)
    else if c = '\\' then
      match rest with
      | [] => none
      | e :: rest2 =>
        if e = 'u' then
          match rest2 with
          | h1 :: h2 :: h3 :: h4 :: rest3 =>
            match hexVal h1, hexVal h2, hexVal h3, hexVal h4 with
            | some a, some b, some c2, some d =>
              parseStringBody fuel (Char.ofNat (((a * 16 + b) * 16 + c2) * 16 + d) :: acc) rest3
            | _, _, _, _ => none
          | _ => none
        else
          match escChar e with
          | some ec => parseStringBody fuel (ec :: acc) rest2
          | none => none
    else parseStringBody fuel (c :: acc) rest

/-- Parse a JSON number, returning its raw literal and the remaining input. -/
def parseNumber (input : List Char) : Option (String × List Char) :=
  let signAndRest : List Char × List Char :=
    match input with
    | '-' :: rest => (['-'], rest)
    | _ => ([], input)
  let intDigits := signAndRest.2.takeWhile Char.isDigit
  let afterInt := signAndRest.2.dropWhile Char.isDigit
  if intDigits = [] then none
  else
    let fracAndRest : List Char × List Char :=
      match afterInt with
      | '.' :: rest =>
        let fd := rest.takeWhile Char.isDigit
        ('.' :: fd, rest.dropWhile Char.isDigit)
      | _ => ([], afterInt)
    if fracAndRest.1 = ['.'] then none
    else
      let expAndRest : Option (List Char × List Char) :=
        match fracAndRest.2 with
        | c :: rest =>
          if c = 'e' ∨ c = 'E' then
            let signedRest : List Char × List Char :=
              match rest with
              | s :: rest2 => if s = '+' ∨ s = '-' then ([s], rest2) else ([], rest)
              | [] => ([], [])
            let ed := signedRest.2.takeWhile Char.isDigit
            if ed = [] then none
            else some (c :: signedRest.1 ++ ed, signedRest.2.dropWhile Char.isDigit)
          else some ([], fracAndRest.2)
        | [] => some ([], [])
      match expAndRest with
      | none => none
      | some er =>
        some (String.mk (signAndRest.1 ++ intDigits ++ fracAndRest.1 ++ er.1), er.2)

mutual

/-- Parse one JSON value. -/
def parseValue (fuel : Nat) (input : List Char) : Option (Json × List Char) :=
  match fuel with
  | 0 => none
  | fuel + 1 =>
    match skipWs input with
    | 'n' :: 'u' :: 'l' :: 'l' :: rest => some (.null, rest)
    | 't' :: 'r' :: 'u' :: 'e' :: rest => some (.bool true, rest)
    | 'f' :: 'a' :: 'l' :: 's' :: 'e' :: rest => some (.bool false, rest)
    | '"' :: rest =>
      match parseStringBody (rest.length + 1) [] rest with
      | some (s, r) => some (.str s, r)
      | none => none
    | '[' :: rest =>
      match parseElems fuel rest with
      | some (vs, r) => some (.arr vs, r)
      | none => none
    | '{' :: rest =>
      match parseFields fuel rest with
      | some (fs, r) => some (.obj fs, r)
      | none => none
    | cs =>
      match parseNumber cs with
      | some (raw, r) => some (.num raw, r)
      | none => none

/-- Parse the elements of a JSON array after the opening bracket. -/
def parseElems (fuel : Nat) (input : List Char) : Option (List Json × List Char) :=
  match fuel with
  | 0 => none
  | fuel + 1 =>
    match skipWs input with
    | ']' :: rest => some ([], rest)
    | cs =>
      match parseValue fuel cs with
      | none => none
      | some (v, r) =>
        match skipWs r with
        | ',' :: r2 =>
          match parseElems fuel r2 with
          | some (vs, r3) => some (v :: vs, r3)
          | none => none
        | ']' :: r2 => some ([v], r2)
        | _ => none

/-- Parse the members of a JSON object after the opening brace. -/
def parseFields (fuel : Nat) (input : List Char) :
    Option (List (String × Json) × List Char) :=
  match fuel with
  | 0 => none
  | fuel + 1 =>
    match skipWs input with
    | '}' :: rest => some ([], rest)
    | '"' :: rest =>
      match parseStringBody (rest.length + 1) [] rest with
      | none => none
      | some (key, r) =>
        match skipWs r with
        | ':' :: r2 =>
          match parseValue fuel r2 with
          | none => none
          | some (v, r3) =>
            match skipWs r3 with
            | ',' :: r4 =>
              match parseFields fuel r4 with
              | some (fs, r5) => some ((key, v) :: fs, r5)
              | none => none
            | '}' :: r4 => some ([(key, v)], r4)
            | _ => none
        | _ => none
    | _ => none

end

/-- Parse a whole JSON document; the input past the value may only be
whitespace. -/
def parseJson (s : String) : Option Json :=
  match parseValue (2 * s.length + 2) s.toList with
  | some (j, rest) => if skipWs rest = [] then some j else none
  | none => none

/-- First binding of a key in a JSON object, as `jsonparser` reads objects. -/
def lookupField : List (String × Json) → String → Option Json
  | [], _ => none
  | (k, v) :: rest, key => if k = key then some v else lookupField rest key

/-- Model of `jsonparser.GetString(m, key)` at the call sites: the value at a
top-level key of the frame, required to be a JSON string. -/
def jsonGetString (m : String) (key : String) : Except String String :=
  match parseJson m with
  | none => .error "malformed json"
  | some (.obj fields) =>
    match lookupField fields key with
    | some (.str s) => .ok s
    | some _ => .error "value is not a string"
    | none => .error "key path not found"
  | some _ => .error "value is not an object"

/-- Integer value of a raw JSON number literal: an optional minus sign and
digits; fractional or exponent literals are rejected, as `jsonparser.GetInt`
and `encoding/json` into an int64 field reject them. -/
def rawToInt (raw : String) : Option Int :=
  match raw.toList with
  | '-' :: rest =>
    if rest ≠ [] ∧ rest.all Char.isDigit then some (-(digitsToNat rest : Int)) else none
  | cs => if cs ≠ [] ∧ cs.all Char.isDigit then some (digitsToNat cs : Int) else none

/-- Model of `jsonparser.GetInt(m, key)` at the call sites. -/
def jsonGetInt (m : String) (key : String) : Except String Int :=
  match parseJson m with
  | none => .error "malformed json"
  | some (.obj fields) =>
    match lookupField fields key with
    | some (.num raw) =>
      match rawToInt raw with
      | some i => .ok i
      | none => .error "value is not an integer"
    | some _ => .error "value is not a number"
    | none => .error "key path not found"
  | some _ => .error "value is not an object"

/-- Model of `jsonparser.GetBoolean(m, key)` at the call sites. -/
def jsonGetBoolean (m : String) (key : String) : Except String Bool :=
  match parseJson m with
  | none => .error "malformed json"
  | some (.obj fields) =>
    match lookupField fields key with
    | some (.bool b) => .ok b
    | some _ => .error "value is not a boolean"
    | none => .error "key path not found"
  | some _ => .error "value is not an object"

/-- Model of `jsonparser.Get(m, key)` at the call sites: the raw JSON value at
a top-level key of the frame. -/
def jsonGetRaw (m : String) (key : String) : Except String Json :=
  match parseJson m with
  | none => .error "malformed json"
  | some (.obj fields) =>
    match lookupField fields key with
    | some v => .ok v
    | none => .error "key path not found"
  | some _ => .error "value is not an object"

/-- String field of an unmarshalled object: a missing key leaves the Go zero
value `""`, a non-string value makes `encoding/json` fail. -/
def getStrField (fields : List (String × Json)) (key : String) : Except String String :=
  match lookupField fields key with
  | none => .ok ""
  | some (.str s) => .ok s
  | some _ => .error "cannot unmarshal value into string field"

/-- Integer field of an unmarshalled object: a missing key leaves the Go zero
value `0`, a non-integer value makes `encoding/json` fail. -/
def getIntField (fields : List (String × Json)) (key : String) : Except String Int :=
  match lookupField fields key with
  | none => .ok 0
  | some (.num raw) =>
    match rawToInt raw with
    | some i => .ok i
    | none => .error "cannot unmarshal number into int64 field"
  | some _ => .error "cannot unmarshal value into int64 field"

/-- Model of `json.Unmarshal` into `[]*PayloadBalance` as used by
`parseAccountBalance`: a JSON array of objects with string fields a, f, l. -/
def unmarshalPayloadBalances (j : Json) : Except String (List PayloadBalance) :=
  match j with
  | .arr elems =>
    elems.mapM fun e =>
      match e with
      | .obj fields =>
        match getStrField fields "a" with
        | .error msg => .error msg
        | .ok a =>
          match getStrField fields "f" with
          | .error msg => .error msg
          | .ok f =>
            match getStrField fields "l" with
            | .error msg => .error msg
            | .ok l => .ok { asset := a, free := f, lock := l }
      | _ => .error "cannot unmarshal element into PayloadBalance"
  | _ => .error "cannot unmarshal value into slice"

/-- Model of `json.Unmarshal(m, &balanceUpdate)` in `processMessages`: JSON
keys E, a, d, T of the frame's top-level object. -/
def unmarshalBalanceUpdate (m : String) : Except String BalanceUpdate :=
  match parseJson m with
  | none => .error "malformed json"
  | some (.obj fields) =>
    match getIntField fields "E" with
    | .error msg => .error msg
    | .ok e =>
      match getStrField fields "a" with
      | .error msg => .error msg
      | .ok a =>
        match getStrField fields "d" with
        | .error msg => .error msg
        | .ok d =>
          match getIntField fields "T" with
          | .error msg => .error msg
          | .ok t => .ok { eventTime := e, asset := a, balanceDelta := d, clearTime := t }
  | some _ => .error "cannot unmarshal value into BalanceUpdate"

/-- `parseAccountOrder` (binance_ws_worker.go lines 99-207): twenty-six
`jsonparser` extractions, each failure aborting with that error. -/
def parseAccountOrder (m : String) : Except String ExecutionReport := do
  let eventTime ← jsonGetInt m "E"
  let symbol ← jsonGetString m "s"
  let clientOrderID ← jsonGetString m "c"
  let side ← jsonGetString m "S"
  let orderType ← jsonGetString m "o"
  let timeInForce ← jsonGetString m "f"
  let quantity ← jsonGetString m "q"
  let price ← jsonGetString m "p"
  let stopPrice ← jsonGetString m "P"
  let icebergQuantity ← jsonGetString m "F"
  let orderListID ← jsonGetInt m "g"
  let originalClientOrderID ← jsonGetString m "C"
  let currentExecutionType ← jsonGetString m "x"
  let currentOrderStatus ← jsonGetString m "X"
  let rejectReason ← jsonGetString m "r"
  let orderID ← jsonGetInt m "i"
  let lastExecutedQuantity ← jsonGetString m "l"
  let cumulativeFilledQuantity ← jsonGetString m "z"
  let lastExecutedPrice ← jsonGetString m "L"
  let commissionAmount ← jsonGetString m "n"
  let transactionTime ← jsonGetInt m "T"
  let tradeID ← jsonGetInt m "t"
  let orderCreationTime ← jsonGetInt m "O"
  let quoteOrderQty ← jsonGetString m "Q"
  let cumulativeQuoteAssetTransactedQuantity ← jsonGetString m "Z"
  let isOrderInTheBook ← jsonGetBoolean m "w"
  return { eventTime, symbol, clientOrderID, side, orderType, timeInForce,
           quantity, price, stopPrice, icebergQuantity, orderListID,
           originalClientOrderID, currentExecutionType, currentOrderStatus,
           rejectReason, orderID, lastExecutedQuantity,
           cumulativeFilledQuantity, lastExecutedPrice, commissionAmount,
           transactionTime, tradeID, orderCreationTime, quoteOrderQty,
           cumulativeQuoteAssetTransactedQuantity, isOrderInTheBook }

/-- `AccountDataWorker.parseAccountBalance` (binance_ws_worker.go lines
209-220): look up the raw "B" member of the frame and unmarshal it into the
payload balance list; each failure is logged and wrapped. -/
def parseAccountBalance (m : String) : Except String (List PayloadBalance) :=
  match jsonGetRaw m "B" with
  | .error e => .error ("failed to lookup balance: " ++ e)
  | .ok j =>
    match unmarshalPayloadBalances j with
    | .error e => .error ("failed to parse balance data: " ++ e)
    | .ok balance => .ok balance

/-- Modelled from the spec: removal from the outstanding-order watch list
(`orderlist.OrderList.Remove`, external to the provided sources). -/
def trackerRemove : List String → String → List String
  | [], _ => []
  | t :: rest, id => if t = id then trackerRemove rest id else t :: trackerRemove rest id

/-- State touched by the event dispatcher: the account store, the
completed-order cache and the outstanding-order watch list of `BContext`. -/
structure WorkerState where
  store : BAccountInfo
  completedOrders : List (String × OpenOrder)
  wsOrderTracker : List String
deriving DecidableEq

/-- One iteration of the `for m := range messages` loop of
`AccountDataWorker.processMessages` (binance_ws_worker.go lines 36-97).  The
boolean is true exactly when the Go code executes `return`, which ends the
dispatch loop. -/
def processMessage (bc : WorkerState) (m : String) : Bool × WorkerState :=
  match jsonGetString m "e" with
  | .error _ => (true, bc)
  | .ok eventType =>
    if eventType = "outboundAccountPosition" then
      match parseAccountBalance m with
      | .error _ => (true, bc)
      | .ok balance =>
        match updateBalance bc.store balance with
        | .error _ => (true, bc)
        | .ok info => (false, { bc with store := info })
    else if eventType = "balanceUpdate" then
      match unmarshalBalanceUpdate m with
      | .error _ => (true, bc)
      | .ok bu =>
        match updateBalanceDelta bc.store bu with
        | .error _ => (true, bc)
        | .ok info => (false, { bc with store := info })
    else if eventType = "executionReport" then
      match parseAccountOrder m with
      | .error _ => (true, bc)
      | .ok o =>
        let r := updateOrder bc.store.openOrder o
        match r.err with
        | some _ => (true, { bc with store := { bc.store with openOrder := r.openOrder } })
        | none =>
          let completed :=
            if r.removed then
              cacheSet bc.completedOrders
                (makeCompletedOrderID r.order.symbol r.order.orderID) r.order
            else bc.completedOrders
          let tracker := trackerRemove bc.wsOrderTracker (makeCompletedOrderID o.symbol o.orderID)
          (false, { store := { bc.store with openOrder := r.openOrder },
                    completedOrders := completed, wsOrderTracker := tracker })
    else (false, bc)

/-- `AccountDataWorker.processMessages` over a queue of frames: each frame is
handled by `processMessage`, and a `return` inside the loop ends processing,
leaving the remaining frames unconsumed. -/
def processMessages (bc : WorkerState) : List String → WorkerState
  | [] => bc
  | m :: rest =>
    match processMessage bc m with
    | (true, bc2) => bc2
    | (false, bc2) => processMessages bc2 rest

/-- `AccountDataWorker.initWSSession` (binance_ws_worker.go lines 290-319).
The three REST calls are external I/O; their outcomes are the function's
inputs here.  Each failure returns that error with the store untouched; on
full success the snapshot is built in a local value and installed with
`SetData`. -/
def initWSSession (store : BAccountInfo) (listenKeyRes : Except String String)
    (accountStateRes : Except String AccountState)
    (openOrdersRes : Except String (List OpenOrder)) :
    Except String String × BAccountInfo :=
  match listenKeyRes with
  | .error e => (.error e, store)
  | .ok listenKey =>
    match accountStateRes with
    | .error e => (.error e, store)
    | .ok accountState =>
      match openOrdersRes with
      | .error e => (.error e, store)
      | .ok orders =>
        let info : BAccountInfo :=
          { state := accountState
            openOrder :=
              orders.foldl (fun m o => insertOrder m (uniqOrder o.symbol o.orderID) o) [] }
        (.ok listenKey, setData store info)

/-! ## REST client models for the create-listen-key request -/

/-- Model of `json.Unmarshal(respBody, &listenKey)`: the `listenKey` string
member of the response object; a missing member leaves the zero value. -/
def unmarshalListenKey (body : String) : Except String String :=
  match parseJson body with
  | none => .error "malformed json"
  | some (.obj fields) => getStrField fields "listenKey"
  | some _ => .error "cannot unmarshal value into ListenKey"

/-- `Client.CreateListenKey` of the earliest client evolution
(unnamed/part_000 lines 51-81), given the response status and the outcome of
reading the response body.  Only a 200 status reads and unmarshals the body
(an unmarshal failure is merely logged); any other status is merely logged,
and the function returns the zero-value listen key with a nil error. -/
def createListenKeyLegacy (status : Nat) (readBody : Except String String) :
    Except String String :=
  if status = 200 then
    match readBody with
    | .error e => .error e
    | .ok body =>
      match unmarshalListenKey body with
      | .ok k => .ok k
      | .error _ => .ok ""
  else
    .ok ""

/-- `Client.doRequest` (binance_client.go lines 68-95 and unnamed/part_001
lines 72-98) specialised to the create-listen-key call: a 200 status
unmarshals the body into the listen-key struct, any other status returns an
error carrying the status code and body. -/
def doRequestListenKey (status : Nat) (body : String) : Except String String :=
  if status = 200 then
    match unmarshalListenKey body with
    | .ok k => .ok k
    | .error e => .error e
  else
    .error ("got unexpected status code " ++ toString status ++ ", body=" ++ body)

/-- `Client.CreateListenKey` of the current client (binance_client.go lines
50-66, identical in control flow to unnamed/part_001 lines 52-70): delegate to
`doRequest` and propagate its error. -/
def createListenKey (status : Nat) (body : String) : Except String String :=
  match doRequestListenKey status body with
  | .error e => .error e
  | .ok k => .ok k

/-! ## Concrete inputs used by witnesses and counterexamples -/

/-- The raw frame of testable property 4 of the spec. -/
def sampleFrame : String :=
  "\x7b\"e\":\"outboundAccountPosition\",\"E\":1600749480712,\"u\":1600749480711,\"B\":[\x7b\"a\":\"BNB\",\"f\":\"1.60268308\",\"l\":\"0.00000000\"\x7d]\x7d"

/-- A frame with no event-type discriminator: `jsonparser.GetString(m, "e")`
fails on it. -/
def framelessEvent : String := "\x7b\"E\":1600749480712\x7d"

/-- An initially empty dispatcher state. -/
def initialWorkerState : WorkerState :=
  { store := { state := {}, openOrder := [] }, completedOrders := [], wsOrderTracker := [] }

/-- A NEW execution report for BTCUSDT order 77. -/
def sampleReportNew : ExecutionReport :=
  { eventTime := 1600000002, symbol := "BTCUSDT", clientOrderID := "c1", side := "BUY"
    orderType := "LIMIT", timeInForce := "GTC", quantity := "1.0", price := "10000"
    stopPrice := "0", icebergQuantity := "0", orderListID := -1
    originalClientOrderID := "", currentExecutionType := "NEW", currentOrderStatus := "NEW"
    rejectReason := "NONE", orderID := 77, lastExecutedQuantity := "0"
    cumulativeFilledQuantity := "0", lastExecutedPrice := "0", commissionAmount := "0"
    transactionTime := 1600000001, tradeID := -1, orderCreationTime := 1600000000
    quoteOrderQty := "0", cumulativeQuoteAssetTransactedQuantity := "0"
    isOrderInTheBook := true }

/-- A FILLED execution report for the same BTCUSDT order 77. -/
def sampleReportFilled : ExecutionReport :=
  { sampleReportNew with
    eventTime := 1600000012, currentExecutionType := "TRADE"
    currentOrderStatus := "FILLED", lastExecutedQuantity := "1.0"
    cumulativeFilledQuantity := "1.0", lastExecutedPrice := "10000"
    cumulativeQuoteAssetTransactedQuantity := "10000", transactionTime := 1600000011
    tradeID := 5, isOrderInTheBook := false }

/-- A store whose account state holds one BNB balance with free `"10.0"`. -/
def sampleStoreBNB : BAccountInfo :=
  { state := { balances := [{ asset := "BNB", free := "10.0", locked := "0.00000000" }] }
    openOrder := [] }

/-- A balance-delta event adding `"+1.5"` of BNB. -/
def sampleDeltaBNB : BalanceUpdate :=
  { eventTime := 1600000001, asset := "BNB", balanceDelta := "+1.5", clearTime := 1600000000 }

/-- A balance-delta event whose delta string is malformed and whose asset is
absent from `sampleStoreBNB`. -/
def sampleDeltaMalformedUnknown : BalanceUpdate :=
  { eventTime := 1600000001, asset := "XYZ", balanceDelta := "abc", clearTime := 1600000000 }

/-- A balance-delta event whose delta string is malformed, for the asset
present in `sampleStoreBNB`. -/
def sampleDeltaMalformedBNB : BalanceUpdate :=
  { eventTime := 1600000001, asset := "BNB", balanceDelta := "abc", clearTime := 1600000000 }

/-! ## Theorems -/

theorem lookupOrder_insertOrder_self (m : OrderMap) (k : String) (v : OpenOrder) :
    lookupOrder (insertOrder m k v) k = some v := by
  induction m with
  | nil => simp [insertOrder, lookupOrder]
  | cons kv rest ih =>
    obtain ⟨k0, v0⟩ := kv
    by_cases h : k0 = k
    · simp [insertOrder, h, lookupOrder]
    · simp [insertOrder, h, lookupOrder, ih]

theorem lookupOrder_eraseOrder_self (m : OrderMap) (k : String) :
    lookupOrder (eraseOrder m k) k = none := by
  induction m with
  | nil => simp [eraseOrder, lookupOrder]
  | cons kv rest ih =>
    obtain ⟨k0, v0⟩ := kv
    by_cases h : k0 = k
    · simp [eraseOrder, h, ih]
    · simp [eraseOrder, h, lookupOrder, ih]

theorem mem_openOrders_of_lookupOrder {m : OrderMap} {k : String} {v : OpenOrder}
    (h : lookupOrder m k = some v) : v ∈ openOrders m := by
  induction m with
  | nil => simp [lookupOrder] at h
  | cons kv rest ih =>
    obtain ⟨k0, v0⟩ := kv
    by_cases hk : k0 = k
    · rw [lookupOrder, if_pos hk] at h
      simp only [Option.some.injEq] at h
      simp [openOrders, h]
    · rw [lookupOrder, if_neg hk] at h
      simpa [openOrders] using Or.inr (ih h)

/-- C10: a terminal execution report (FILLED or CANCELED) whose composite key
is absent from the open-order map still succeeds: `UpdateOrder` returns no
error, `removed = true` and the record populated from the event's fields, and
afterwards the open-order map does not contain the key (the transient insert
is deleted before returning). -/
theorem updateOrder_terminal_absent (m : OrderMap) (o : ExecutionReport)
    (habs : lookupOrder m (makeCompletedOrderID o.symbol o.orderID) = none)
    (hterm : o.currentOrderStatus = "FILLED" ∨ o.currentOrderStatus = "CANCELED") :
    (updateOrder m o).err = none ∧
    (updateOrder m o).removed = true ∧
    (updateOrder m o).order = o.toOpenOrder ∧
    lookupOrder (updateOrder m o).openOrder (makeCompletedOrderID o.symbol o.orderID) = none := by
  rcases hterm with h | h <;>
    simp [updateOrder, habs, h, lookupOrder_eraseOrder_self]

/-- Witness for C10 at a concrete input: a FILLED report for BTCUSDT order 77
applied to the empty open-order map. -/
theorem updateOrder_terminal_absent_witness :
    lookupOrder [] (makeCompletedOrderID sampleReportFilled.symbol sampleReportFilled.orderID)
      = none ∧
    (updateOrder [] sampleReportFilled).err = none ∧
    (updateOrder [] sampleReportFilled).removed = true ∧
    (updateOrder [] sampleReportFilled).order = sampleReportFilled.toOpenOrder ∧
    lookupOrder (updateOrder [] sampleReportFilled).openOrder
      (makeCompletedOrderID sampleReportFilled.symbol sampleReportFilled.orderID) = none := by
  refine ⟨rfl, ?_⟩
  exact updateOrder_terminal_absent [] sampleReportFilled rfl (Or.inl rfl)

/-- C2: `UpdateOrder` upserts the order keyed by (symbol, orderId): a
non-terminal event leaves the record at its composite key; an event with
status NEW leaves the order present in `OpenOrders()` with `removed = false`;
a subsequent event for the same (symbol, orderId) with terminal status FILLED
or CANCELED removes the key from the live open-order map and returns
`removed = true` with the final record, and archiving that record as the
dispatcher does makes it retrievable from the completed-order cache. -/
theorem updateOrder_new_then_terminal (m : OrderMap) (cache : List (String × OpenOrder))
    (e1 e2 : ExecutionReport)
    (h1 : e1.currentOrderStatus = "NEW")
    (h2 : e2.currentOrderStatus = "FILLED" ∨ e2.currentOrderStatus = "CANCELED")
    (hsym : e2.symbol = e1.symbol) (hid : e2.orderID = e1.orderID) :
    (∀ o : ExecutionReport,
      ¬(o.currentOrderStatus = "CANCELED" ∨ o.currentOrderStatus = "FILLED") →
      lookupOrder (updateOrder m o).openOrder (makeCompletedOrderID o.symbol o.orderID) =
        some o.toOpenOrder) ∧
    (updateOrder m e1).removed = false ∧
    e1.toOpenOrder ∈ openOrders (updateOrder m e1).openOrder ∧
    (updateOrder (updateOrder m e1).openOrder e2).removed = true ∧
    (updateOrder (updateOrder m e1).openOrder e2).err = none ∧
    (updateOrder (updateOrder m e1).openOrder e2).order = e2.toOpenOrder ∧
    lookupOrder (updateOrder (updateOrder m e1).openOrder e2).openOrder
      (makeCompletedOrderID e1.symbol e1.orderID) = none ∧
    cacheGet
      (cacheSet cache
        (makeCompletedOrderID (updateOrder (updateOrder m e1).openOrder e2).order.symbol
          (updateOrder (updateOrder m e1).openOrder e2).order.orderID)
        (updateOrder (updateOrder m e1).openOrder e2).order)
      (makeCompletedOrderID e1.symbol e1.orderID) = some e2.toOpenOrder := by
  have hnot1 : ¬(e1.currentOrderStatus = "CANCELED" ∨ e1.currentOrderStatus = "FILLED") := by
    rw [h1]; decide
  have hkey : makeCompletedOrderID e2.symbol e2.orderID = makeCompletedOrderID e1.symbol e1.orderID := by
    rw [hsym, hid]
  refine ⟨?_, ?_, ?_, ?_, ?_, ?_, ?_, ?_⟩
  · intro o hno
    rw [updateOrder]
    rw [if_neg hno]
    exact lookupOrder_insertOrder_self _ _ _
  · rw [updateOrder, if_neg hnot1]
  · rw [updateOrder, if_neg hnot1]
    exact mem_openOrders_of_lookupOrder (lookupOrder_insertOrder_self _ _ _)
  · rcases h2 with h | h <;> rw [updateOrder] <;> simp [h]
  · rcases h2 with h | h <;> rw [updateOrder] <;> simp [h]
  · rcases h2 with h | h <;> rw [updateOrder] <;> simp [h]
  · rcases h2 with h | h <;> rw [updateOrder] <;> simp [h, hkey, lookupOrder_eraseOrder_self]
  · have hs : e2.toOpenOrder.symbol = e2.symbol := rfl
    have hi : e2.toOpenOrder.orderID = e2.orderID := rfl
    rcases h2 with h | h <;> rw [updateOrder] <;>
      simp [h, hs, hi, hkey, cacheGet, cacheSet, lookupOrder_insertOrder_self]

/-- Witness for C2 at concrete inputs: a NEW report then a FILLED report for
BTCUSDT order 77, starting from the empty open-order map and empty cache. -/
theorem updateOrder_new_then_terminal_witness :
    sampleReportNew.currentOrderStatus = "NEW" ∧
    (sampleReportFilled.currentOrderStatus = "FILLED" ∨
      sampleReportFilled.currentOrderStatus = "CANCELED") ∧
    ((updateOrder [] sampleReportNew).removed = false ∧
      sampleReportNew.toOpenOrder ∈ openOrders (updateOrder [] sampleReportNew).openOrder ∧
      (updateOrder (updateOrder [] sampleReportNew).openOrder sampleReportFilled).removed = true ∧
      lookupOrder
        (updateOrder (updateOrder [] sampleReportNew).openOrder sampleReportFilled).openOrder
        (makeCompletedOrderID sampleReportNew.symbol sampleReportNew.orderID) = none) := by
  refine ⟨rfl, Or.inl rfl, ?_⟩
  have h := updateOrder_new_then_terminal [] [] sampleReportNew sampleReportFilled rfl
    (Or.inl rfl) rfl rfl
  exact ⟨h.2.1, h.2.2.1, h.2.2.2.1, h.2.2.2.2.2.2.1⟩

theorem applyBalanceDeltaLoop_not_mem (bs : List Balance) (u : BalanceUpdate)
    (h : ∀ b ∈ bs, b.asset ≠ u.asset) :
    applyBalanceDeltaLoop bs u = .ok bs := by
  induction bs with
  | nil => rfl
  | cons b rest ih =>
    have hb : b.asset ≠ u.asset := h b (List.mem_cons_self b rest)
    rw [applyBalanceDeltaLoop, if_pos hb, ih fun p hp => h p (List.mem_cons_of_mem b hp)]

theorem applyBalanceDeltaLoop_first_match (pre : List Balance) (b : Balance)
    (post : List Balance) (u : BalanceUpdate) (delta free : GoDecimal)
    (hpre : ∀ p ∈ pre, p.asset ≠ u.asset) (hb : b.asset = u.asset)
    (hdelta : newFromString u.balanceDelta = some delta)
    (hfree : newFromString b.free = some free) :
    applyBalanceDeltaLoop (pre ++ b :: post) u =
      .ok (pre ++ { b with free := (free.add delta).toString } :: post) := by
  induction pre with
  | nil =>
    simp only [List.nil_append]
    rw [applyBalanceDeltaLoop, if_neg (by simp [hb]), hdelta, hfree]
  | cons p rest ih =>
    have hp : p.asset ≠ u.asset := hpre p (List.mem_cons_self p rest)
    have ih2 := ih fun q hq => hpre q (List.mem_cons_of_mem p hq)
    simp only [List.cons_append]
    rw [applyBalanceDeltaLoop, if_pos hp, ih2]

theorem applyBalanceDeltaLoop_malformed (pre : List Balance) (b : Balance)
    (post : List Balance) (u : BalanceUpdate)
    (hpre : ∀ p ∈ pre, p.asset ≠ u.asset) (hb : b.asset = u.asset)
    (hdelta : newFromString u.balanceDelta = none) :
    applyBalanceDeltaLoop (pre ++ b :: post) u = .error "failed to parse balance delta" := by
  induction pre with
  | nil =>
    simp only [List.nil_append]
    rw [applyBalanceDeltaLoop, if_neg (by simp [hb]), hdelta]
  | cons p rest ih =>
    have hp : p.asset ≠ u.asset := hpre p (List.mem_cons_self p rest)
    have ih2 := ih fun q hq => hpre q (List.mem_cons_of_mem p hq)
    simp only [List.cons_append]
    rw [applyBalanceDeltaLoop, if_pos hp, ih2]

/-- C5: a balance-delta event for an asset present in the stored balances adds
the parsed decimal delta to the first matching balance's free amount, rendered
back as a decimal string (concretely, delta `"+1.5"` on free `"10.0"` yields
`"11.5"`); an event whose asset is absent leaves the store unchanged and
returns no error. -/
theorem updateBalanceDelta_spec (info : BAccountInfo) (u : BalanceUpdate) :
    ((∀ b ∈ info.state.balances, b.asset ≠ u.asset) →
      updateBalanceDelta info u = .ok info) ∧
    (∀ pre b post delta free, info.state.balances = pre ++ b :: post →
      (∀ p ∈ pre, p.asset ≠ u.asset) → b.asset = u.asset →
      newFromString u.balanceDelta = some delta → newFromString b.free = some free →
      updateBalanceDelta info u =
        .ok { info with
              state := { info.state with
                         balances := pre ++ { b with free := (free.add delta).toString } :: post } }) ∧
    updateBalanceDelta sampleStoreBNB sampleDeltaBNB =
      .ok { sampleStoreBNB with
            state := { sampleStoreBNB.state with
                       balances := [{ asset := "BNB", free := "11.5", locked := "0.00000000" }] } } := by
  refine ⟨?_, ?_, by decide⟩
  · intro h
    rw [updateBalanceDelta, applyBalanceDeltaLoop_not_mem info.state.balances u h]
  · intro pre b post delta free hsplit hpre hb hdelta hfree
    rw [updateBalanceDelta, hsplit,
      applyBalanceDeltaLoop_first_match pre b post u delta free hpre hb hdelta hfree]

/-- Witness for C5 at concrete inputs: the BNB store with free `"10.0"` under
delta `"+1.5"`, and a store whose only asset differs from the event's. -/
theorem updateBalanceDelta_spec_witness :
    updateBalanceDelta sampleStoreBNB
      { eventTime := 0, asset := "XYZ", balanceDelta := "+1.5", clearTime := 0 } =
      .ok sampleStoreBNB ∧
    updateBalanceDelta sampleStoreBNB sampleDeltaBNB =
      .ok { sampleStoreBNB with
            state := { sampleStoreBNB.state with
                       balances := [{ asset := "BNB", free := "11.5", locked := "0.00000000" }] } } := by
  constructor
  · exact (updateBalanceDelta_spec sampleStoreBNB
      { eventTime := 0, asset := "XYZ", balanceDelta := "+1.5", clearTime := 0 }).1
      (by decide)
  · exact (updateBalanceDelta_spec sampleStoreBNB sampleDeltaBNB).2.1
      [] { asset := "BNB", free := "10.0", locked := "0.00000000" } []
      { value := 15, exp := -1 } { value := 100, exp := -1 }
      (by decide) (by decide) (by decide) (by decide) (by decide)

/-- Counterexample for C6: a balance-delta event whose delta string `"abc"` is
malformed but whose asset is absent from the stored balances makes
`UpdateBalanceDelta` return success, not a parse error. -/
theorem updateBalanceDelta_malformed_unknown_counterexample :
    newFromString sampleDeltaMalformedUnknown.balanceDelta = none ∧
    updateBalanceDelta sampleStoreBNB sampleDeltaMalformedUnknown = .ok sampleStoreBNB := by
  exact ⟨by decide, by decide⟩

/-- C6 (amended): a balance-delta event whose delta string is malformed fails
with a parse error whenever the event's asset matches a stored balance (the
delta is only parsed at the first matching asset); with no matching asset the
event is ignored and no error is returned. -/
theorem updateBalanceDelta_malformed (info : BAccountInfo) (u : BalanceUpdate)
    (hdelta : newFromString u.balanceDelta = none) :
    (∀ pre b post, info.state.balances = pre ++ b :: post →
      (∀ p ∈ pre, p.asset ≠ u.asset) → b.asset = u.asset →
      updateBalanceDelta info u = .error "failed to parse balance delta") ∧
    ((∀ b ∈ info.state.balances, b.asset ≠ u.asset) →
      updateBalanceDelta info u = .ok info) := by
  constructor
  · intro pre b post hsplit hpre hb
    rw [updateBalanceDelta, hsplit, applyBalanceDeltaLoop_malformed pre b post u hpre hb hdelta]
  · intro h
    rw [updateBalanceDelta, applyBalanceDeltaLoop_not_mem info.state.balances u h]

/-- Witness for the amended C6 at concrete inputs: malformed delta `"abc"`
against the BNB store, first with the matching asset BNB, then with the
absent asset XYZ. -/
theorem updateBalanceDelta_malformed_witness :
    updateBalanceDelta sampleStoreBNB sampleDeltaMalformedBNB =
      .error "failed to parse balance delta" ∧
    updateBalanceDelta sampleStoreBNB sampleDeltaMalformedUnknown = .ok sampleStoreBNB := by
  constructor
  · exact (updateBalanceDelta_malformed sampleStoreBNB sampleDeltaMalformedBNB (by decide)).1
      [] { asset := "BNB", free := "10.0", locked := "0.00000000" } []
      (by decide) (by decide) (by decide)
  · exact (updateBalanceDelta_malformed sampleStoreBNB sampleDeltaMalformedUnknown (by decide)).2
      (by decide)

theorem upsertBalance_not_mem (bs : List Balance) (t : PayloadBalance)
    (h : ∀ b ∈ bs, b.asset ≠ t.asset) :
    upsertBalance bs t = bs ++ [{ asset := t.asset, free := t.free, locked := t.lock }] := by
  induction bs with
  | nil => rfl
  | cons b rest ih =>
    have hb : t.asset ≠ b.asset := fun hc => h b (List.mem_cons_self b rest) hc.symm
    rw [upsertBalance, if_pos hb, ih fun p hp => h p (List.mem_cons_of_mem b hp)]
    rfl

theorem upsertBalance_first_match (pre : List Balance) (b : Balance)
    (post : List Balance) (t : PayloadBalance)
    (hpre : ∀ p ∈ pre, p.asset ≠ t.asset) (hb : b.asset = t.asset) :
    upsertBalance (pre ++ b :: post) t =
      pre ++ { b with free := t.free, locked := t.lock } :: post := by
  induction pre with
  | nil =>
    simp only [List.nil_append]
    rw [upsertBalance, if_neg (by simp [hb])]
  | cons p rest ih =>
    have hp : t.asset ≠ p.asset :=
      fun hc => hpre p (List.mem_cons_self p rest) hc.symm
    have ih2 := ih fun q hq => hpre q (List.mem_cons_of_mem p hq)
    simp only [List.cons_append]
    rw [upsertBalance, if_pos hp, ih2]

theorem countAsset_cons (b : Balance) (rest : List Balance) (a : String) :
    countAsset (b :: rest) a = (if b.asset = a then 1 else 0) + countAsset rest a := by
  by_cases h : b.asset = a
  · simp [countAsset, List.filter_cons, h]
    omega
  · simp [countAsset, List.filter_cons, h]

theorem countAsset_upsertBalance (bs : List Balance) (t : PayloadBalance) (a : String) :
    countAsset (upsertBalance bs t) a =
      if a = t.asset then max (countAsset bs a) 1 else countAsset bs a := by
  induction bs with
  | nil =>
    by_cases h : a = t.asset
    · subst h
      simp [upsertBalance, countAsset]
    · have h2 : ¬(t.asset = a) := fun hc => h hc.symm
      simp [upsertBalance, countAsset, h, h2]
  | cons b rest ih =>
    by_cases hbt : t.asset = b.asset
    · rw [upsertBalance, if_neg (by simp [hbt])]
      have hproj : ({ b with free := t.free, locked := t.lock } : Balance).asset = b.asset := rfl
      rw [countAsset_cons, hproj, countAsset_cons]
      by_cases ha : a = t.asset
      · have hba : b.asset = a := hbt.symm.trans ha.symm
        rw [if_pos ha, if_pos hba]
        omega
      · have hba : ¬(b.asset = a) := fun hc => ha ((hbt.trans hc).symm)
        rw [if_neg ha, if_neg hba]
    · rw [upsertBalance, if_pos hbt, countAsset_cons, countAsset_cons, ih]
      by_cases ha : a = t.asset
      · have hba : ¬(b.asset = a) := fun hc => hbt ((hc.trans ha).symm)
        rw [if_pos ha, if_pos ha, if_neg hba]
        omega
      · rw [if_neg ha, if_neg ha]

theorem countAsset_foldl_upsertBalance (ts : List PayloadBalance) (bs : List Balance)
    (h : ∀ a, countAsset bs a ≤ 1) :
    ∀ a, countAsset (ts.foldl upsertBalance bs) a ≤ 1 := by
  induction ts generalizing bs with
  | nil => exact h
  | cons t rest ih =>
    refine ih (upsertBalance bs t) ?_
    intro a
    rw [countAsset_upsertBalance]
    by_cases ha : a = t.asset
    · rw [if_pos ha]
      exact max_le (h a) le_rfl
    · rw [if_neg ha]
      exact h a

/-- C7: `UpdateBalance` is an upsert that never fails: it returns no error for
every payload list; a payload entry whose asset is absent is appended as a new
balance; an entry whose asset is already present overwrites the first matching
balance's free and locked in place without creating a duplicate entry; and
asset uniqueness of the balance list is preserved across the whole update. -/
theorem updateBalance_spec :
    (∀ (info : BAccountInfo) (ts : List PayloadBalance),
      ∃ info2, updateBalance info ts = .ok info2) ∧
    (∀ (info : BAccountInfo) (t : PayloadBalance),
      (∀ b ∈ info.state.balances, b.asset ≠ t.asset) →
      updateBalance info [t] =
        .ok { info with
              state := { info.state with
                         balances := info.state.balances ++
                           [{ asset := t.asset, free := t.free, locked := t.lock }] } }) ∧
    (∀ (info : BAccountInfo) (t : PayloadBalance) (pre : List Balance) (b : Balance)
        (post : List Balance),
      info.state.balances = pre ++ b :: post →
      (∀ p ∈ pre, p.asset ≠ t.asset) → b.asset = t.asset →
      updateBalance info [t] =
        .ok { info with
              state := { info.state with
                         balances := pre ++ { b with free := t.free, locked := t.lock } :: post } }) ∧
    (∀ (bs : List Balance) (ts : List PayloadBalance),
      (∀ a, countAsset bs a ≤ 1) →
      ∀ a, countAsset (ts.foldl upsertBalance bs) a ≤ 1) := by
  refine ⟨?_, ?_, ?_, fun bs ts h => countAsset_foldl_upsertBalance ts bs h⟩
  · intro info ts
    exact ⟨_, rfl⟩
  · intro info t h
    rw [updateBalance]
    simp only [List.foldl_cons, List.foldl_nil]
    rw [upsertBalance_not_mem info.state.balances t h]
  · intro info t pre b post hsplit hpre hb
    rw [updateBalance]
    simp only [List.foldl_cons, List.foldl_nil]
    rw [hsplit, upsertBalance_first_match pre b post t hpre hb]

/-- Witness for C7 at concrete inputs: upserting UNI into the BNB store
appends it, and upserting BNB overwrites the existing entry in place. -/
theorem updateBalance_spec_witness :
    (∃ info2, updateBalance sampleStoreBNB
      [{ asset := "UNI", free := "1.5", lock := "0" }] = .ok info2) ∧
    updateBalance sampleStoreBNB [{ asset := "UNI", free := "1.5", lock := "0" }] =
      .ok { sampleStoreBNB with
            state := { sampleStoreBNB.state with
                       balances := [{ asset := "BNB", free := "10.0", locked := "0.00000000" },
                                    { asset := "UNI", free := "1.5", locked := "0" }] } } ∧
    updateBalance sampleStoreBNB [{ asset := "BNB", free := "2.0", lock := "1.0" }] =
      .ok { sampleStoreBNB with
            state := { sampleStoreBNB.state with
                       balances := [{ asset := "BNB", free := "2.0", locked := "1.0" }] } } ∧
    countAsset ([{ asset := "BNB", free := "2.0", lock := "1.0" }].foldl upsertBalance
      sampleStoreBNB.state.balances) "BNB" ≤ 1 := by
  refine ⟨updateBalance_spec.1 sampleStoreBNB _, ?_, ?_, ?_⟩
  · exact updateBalance_spec.2.1 sampleStoreBNB { asset := "UNI", free := "1.5", lock := "0" }
      (by decide)
  · exact updateBalance_spec.2.2.1 sampleStoreBNB { asset := "BNB", free := "2.0", lock := "1.0" }
      [] { asset := "BNB", free := "10.0", locked := "0.00000000" } [] rfl (by decide) rfl
  · refine updateBalance_spec.2.2.2 sampleStoreBNB.state.balances
      [{ asset := "BNB", free := "2.0", lock := "1.0" }] ?_ "BNB"
    intro a
    show countAsset [{ asset := "BNB", free := "10.0", locked := "0.00000000" }] a ≤ 1
    have h0 : countAsset [] a = 0 := rfl
    rw [countAsset_cons, h0]
    split_ifs <;> omega

/-- C3: `initWSSession` is atomic with respect to the account store: if the
listen-key creation, the account-state fetch or the open-orders fetch fails,
it returns that error and the store is unchanged; only when all three succeed
is the locally built merged snapshot installed with `SetData`. -/
theorem initWSSession_atomic (store : BAccountInfo) (lk : Except String String)
    (acc : Except String AccountState) (ords : Except String (List OpenOrder)) :
    (((∃ e, lk = .error e) ∨ (∃ e, acc = .error e) ∨ (∃ e, ords = .error e)) →
      (initWSSession store lk acc ords).2 = store ∧
      ∃ e, (initWSSession store lk acc ords).1 = .error e) ∧
    (∀ key a os, lk = .ok key → acc = .ok a → ords = .ok os →
      initWSSession store lk acc ords =
        (.ok key,
         { state := a,
           openOrder :=
             os.foldl (fun m o => insertOrder m (uniqOrder o.symbol o.orderID) o) [] })) := by
  constructor
  · intro h
    cases lk with
    | error e => exact ⟨rfl, e, rfl⟩
    | ok key =>
      cases acc with
      | error e => exact ⟨rfl, e, rfl⟩
      | ok a =>
        cases ords with
        | error e => exact ⟨rfl, e, rfl⟩
        | ok os =>
          rcases h with ⟨e, he⟩ | ⟨e, he⟩ | ⟨e, he⟩ <;> exact absurd he (by simp)
  · intro key a os hk ha ho
    subst hk; subst ha; subst ho
    rfl

/-- Witness for C3 at concrete inputs: a failing account-state fetch leaves
the BNB store untouched, and a fully successful bootstrap installs the merged
snapshot. -/
theorem initWSSession_atomic_witness :
    ((initWSSession sampleStoreBNB (.ok "listenkey-abcde") (.error "status 500")
        (.ok [])).2 = sampleStoreBNB ∧
      ∃ e, (initWSSession sampleStoreBNB (.ok "listenkey-abcde") (.error "status 500")
        (.ok [])).1 = .error e) ∧
    initWSSession sampleStoreBNB (.ok "listenkey-abcde") (.ok { accountType := "SPOT" })
      (.ok [sampleReportNew.toOpenOrder]) =
      (.ok "listenkey-abcde",
       { state := { accountType := "SPOT" },
         openOrder := [(uniqOrder sampleReportNew.toOpenOrder.symbol
           sampleReportNew.toOpenOrder.orderID, sampleReportNew.toOpenOrder)] }) := by
  constructor
  · exact (initWSSession_atomic sampleStoreBNB (.ok "listenkey-abcde") (.error "status 500")
      (.ok [])).1 (Or.inr (Or.inl ⟨"status 500", rfl⟩))
  · exact (initWSSession_atomic sampleStoreBNB (.ok "listenkey-abcde")
      (.ok { accountType := "SPOT" }) (.ok [sampleReportNew.toOpenOrder])).2
      "listenkey-abcde" { accountType := "SPOT" } [sampleReportNew.toOpenOrder] rfl rfl rfl

/-- Counterexample for C4: in the earliest client evolution
(unnamed/part_000), a 400 response to the create-listen-key request is only
logged, and `CreateListenKey` returns the zero-value listen key with a nil
error instead of failing. -/
theorem createListenKeyLegacy_non2xx_counterexample :
    createListenKeyLegacy 400 (.ok "\x7b\"code\":-1102,\"msg\":\"error\"\x7d") = .ok "" := by
  decide

/-- C4 (amended): in the doRequest-based client (binance_client.go and
unnamed/part_001), every non-2xx response to the create-listen-key request
makes `CreateListenKey` return a non-nil error; in the earliest evolution
(unnamed/part_000), a non-2xx response is only logged and `CreateListenKey`
returns the zero-value listen key with a nil error. -/
theorem createListenKey_non2xx (status : Nat) (body : String)
    (h : status < 200 ∨ 300 ≤ status) :
    (∃ e, createListenKey status body = .error e) ∧
    createListenKeyLegacy status (.ok body) = .ok "" := by
  have hne : ¬(status = 200) := by omega
  constructor
  · exact ⟨_, by rw [createListenKey, doRequestListenKey, if_neg hne]⟩
  · rw [createListenKeyLegacy, if_neg hne]

/-- Witness for the amended C4 at a concrete input: a 400 response. -/
theorem createListenKey_non2xx_witness :
    ((400 : Nat) < 200 ∨ 300 ≤ (400 : Nat)) ∧
    (∃ e, createListenKey 400 "\x7b\"code\":-1102,\"msg\":\"error\"\x7d" = .error e) ∧
    createListenKeyLegacy 400 (.ok "\x7b\"code\":-1102,\"msg\":\"error\"\x7d") = .ok "" :=
  ⟨by omega, createListenKey_non2xx 400 "\x7b\"code\":-1102,\"msg\":\"error\"\x7d" (by omega)⟩

/-- Counterexample for C1: after a frame without an event-type discriminator,
`processMessages` stops consuming the queue entirely — the well-formed
`outboundAccountPosition` frame queued right after it is never applied, while
dispatching that same frame alone does change the store. -/
theorem processMessages_malformed_counterexample :
    processMessages initialWorkerState [framelessEvent, sampleFrame] = initialWorkerState ∧
    (processMessages initialWorkerState [sampleFrame]).store.state.balances =
      [{ asset := "BNB", free := "1.60268308", locked := "0.00000000" }] := by
  exact ⟨by decide, by decide⟩

/-- C1 (amended): a parse or decode failure on a frame is logged and makes
`processMessages` execute `return`, which terminates the dispatch loop: the
failing frame is discarded, the store is left unchanged by it, and every
subsequent frame in the queue is left unprocessed; only frames with an
unrecognized event type are skipped with processing continuing. -/
theorem processMessages_halt_on_parse_failure :
    (∀ (bc : WorkerState) (m : String) (rest : List String),
      (processMessage bc m).1 = true →
      processMessages bc (m :: rest) = (processMessage bc m).2) ∧
    (∀ (bc : WorkerState) (m : String) (e : String),
      jsonGetString m "e" = .error e → processMessage bc m = (true, bc)) ∧
    (∀ (bc : WorkerState) (m : String) (e : String),
      jsonGetString m "e" = .ok "outboundAccountPosition" →
      parseAccountBalance m = .error e → processMessage bc m = (true, bc)) ∧
    (∀ (bc : WorkerState) (m : String) (t : String),
      jsonGetString m "e" = .ok t → t ≠ "outboundAccountPosition" →
      t ≠ "balanceUpdate" → t ≠ "executionReport" →
      processMessage bc m = (false, bc)) := by
  refine ⟨?_, ?_, ?_, ?_⟩
  · intro bc m rest h
    rcases hp : processMessage bc m with ⟨b, bc2⟩
    rw [hp] at h
    simp only at h
    subst h
    simp [processMessages, hp]
  · intro bc m e h
    simp [processMessage, h]
  · intro bc m e he hb
    simp [processMessage, he, hb]
  · intro bc m t ht h1 h2 h3
    simp [processMessage, ht, h1, h2, h3]

/-- Witness for the amended C1 at concrete inputs: the discriminator-free
frame halts the dispatcher and leaves the state unchanged. -/
theorem processMessages_halt_on_parse_failure_witness :
    processMessages initialWorkerState [framelessEvent, sampleFrame] =
      (processMessage initialWorkerState framelessEvent).2 ∧
    processMessage initialWorkerState framelessEvent = (true, initialWorkerState) :=
  ⟨processMessages_halt_on_parse_failure.1 initialWorkerState framelessEvent [sampleFrame]
      (by decide),
    processMessages_halt_on_parse_failure.2.1 initialWorkerState framelessEvent
      "key path not found" (by decide)⟩

/-- C8: dispatching the raw `outboundAccountPosition` frame of testable
property 4 through the event dispatcher yields a balance entry for asset BNB
with free `"1.60268308"` and locked `"0.00000000"` in the account store. -/
theorem processMessages_sampleFrame :
    ({ asset := "BNB", free := "1.60268308", locked := "0.00000000" } : Balance) ∈
      (processMessages initialWorkerState [sampleFrame]).store.state.balances ∧
    (processMessages initialWorkerState [sampleFrame]).store.state.balances =
      [{ asset := "BNB", free := "1.60268308", locked := "0.00000000" }] := by
  exact ⟨by decide, by decide⟩
